import Mathlib

/-
Verification of the parameter-bookkeeping computations of the LACONEU 2025
NEST teaching notebooks.

The repository's own computational content is arithmetic on scalars and
arrays: scaling neuron counts, compensating external in-degrees for the
populations excluded from a truncated mesocircuit simulation, and computing
a DC-current amplitude that elicits a target firing rate.  We embed those
computations shallowly: numpy arrays become `List ℚ`, numpy elementwise
operations become `List.zipWith`/`List.map`, `np.round` (which rounds
halves to even) becomes `roundHalfEven`, and the real-valued DC-current
formula is embedded over `ℝ` with `Real.exp`.
-/

/-! ## Rounding: `np.round` rounds half to even -/

/-- `np.round` to 0 decimals: nearest integer, ties to the even integer. -/
def roundHalfEven (q : ℚ) : ℤ :=
  if q - ⌊q⌋ < 1/2 then ⌊q⌋
  else if 1/2 < q - ⌊q⌋ then ⌊q⌋ + 1
  else if ⌊q⌋ % 2 = 0 then ⌊q⌋ else ⌊q⌋ + 1

lemma roundHalfEven_intCast (k : ℤ) : roundHalfEven (k : ℚ) = k := by
  unfold roundHalfEven
  rw [Int.floor_intCast]
  norm_num

lemma floor_le_roundHalfEven (q : ℚ) : ⌊q⌋ ≤ roundHalfEven q := by
  unfold roundHalfEven
  split_ifs <;> omega

lemma roundHalfEven_le_floor_add_one (q : ℚ) : roundHalfEven q ≤ ⌊q⌋ + 1 := by
  unfold roundHalfEven
  split_ifs <;> omega

lemma abs_roundHalfEven_sub_le (q : ℚ) : |(roundHalfEven q : ℚ) - q| ≤ 1/2 := by
  have hfl : (⌊q⌋ : ℚ) ≤ q := Int.floor_le q
  have hfu : q < ⌊q⌋ + 1 := Int.lt_floor_add_one q
  unfold roundHalfEven
  split_ifs with h1 h2 h3 <;>
    · rw [abs_le]
      push_cast
      constructor <;> linarith

lemma roundHalfEven_mono {q r : ℚ} (hqr : q ≤ r) :
    roundHalfEven q ≤ roundHalfEven r := by
  have hf : ⌊q⌋ ≤ ⌊r⌋ := Int.floor_le_floor hqr
  rcases lt_or_eq_of_le hf with hlt | heq
  · calc roundHalfEven q ≤ ⌊q⌋ + 1 := roundHalfEven_le_floor_add_one q
      _ ≤ ⌊r⌋ := by omega
      _ ≤ roundHalfEven r := floor_le_roundHalfEven r
  · unfold roundHalfEven
    rw [← heq]
    have hcast : ((⌊q⌋ : ℚ)) = ((⌊q⌋ : ℚ)) := rfl
    split_ifs <;> first | omega | linarith

lemma roundHalfEven_int_add_half (k : ℤ) :
    roundHalfEven ((k : ℚ) + 1/2) = if k % 2 = 0 then k else k + 1 := by
  have hfl : ⌊(k : ℚ) + 1/2⌋ = k := by
    rw [add_comm, Int.floor_add_int]
    norm_num
  unfold roundHalfEven
  rw [hfl]
  norm_num

lemma roundHalfEven_nonneg {q : ℚ} (h : -(1/2) ≤ q) : 0 ≤ roundHalfEven q := by
  rcases le_or_lt 0 ⌊q⌋ with hf | hf
  · have := floor_le_roundHalfEven q
    omega
  · have hm1 : (-1 : ℤ) ≤ ⌊q⌋ := Int.le_floor.mpr (by push_cast; linarith)
    have hfq : ⌊q⌋ = -1 := by omega
    have hfl : (⌊q⌋ : ℚ) ≤ q := Int.floor_le q
    unfold roundHalfEven
    rw [hfq]
    rw [hfq] at hfl
    split_ifs with h1 h2 h3
    · exfalso
      push_cast at h1
      linarith
    · omega
    · exfalso
      omega
    · omega

/-! ## The network parameter table (`net_dict`)

The serialized table `network_parameters.pkl` loaded by the reduced
mesocircuit notebook.  2D arrays are lists of rows; a row of `indegrees`
or `weight_matrix_mean` is indexed by source population (8 cortical
populations followed by the thalamocortical column). -/

structure NetDict where
  num_neurons : List ℚ
  extent : ℚ
  indegrees : List (List ℚ)
  beta : List (List ℚ)
  mask_scaling : ℚ
  weight_matrix_mean : List (List ℚ)
  weight_rel_std : ℚ
  delay_offset_exc_inh : List ℚ
  prop_speed_exc_inh : List ℚ
  bg_rate : ℚ
  weight_ext : ℚ
  ext_indegrees : List ℚ

/-- The fixed single-neuron parameter dictionary of the mesocircuit notebook. -/
structure NeuronParams where
  C_m : ℚ
  tau_m : ℚ
  E_L : ℚ
  V_th : ℚ
  V_reset : ℚ
  t_ref : ℚ
  tau_syn_ex : ℚ
  tau_syn_in : ℚ

/-- `neuron_params` of the reduced mesocircuit notebook. -/
def neuron_params : NeuronParams :=
  { C_m := 250, tau_m := 10, E_L := -65, V_th := -50, V_reset := -65,
    t_ref := 2, tau_syn_ex := 2, tau_syn_in := 8 }

/-- Reference per-population firing rates from the full-scale simulation. -/
def rates_meso : List ℚ :=
  [0.376, 1.415, 1.211, 2.824, 2.300, 3.767, 1.146, 3.518]

/-- `tau_syn`: alternating excitatory/inhibitory synaptic time constants,
built as in the notebook from four copies of the pair, flattened. -/
def tau_syn (p : NeuronParams) : List ℚ :=
  ((List.range 4).map (fun _ => [p.tau_syn_ex, p.tau_syn_in])).flatten

/-- The populations simulated by the truncated network (L6E, L6I). -/
def included_popids : List ℕ := [6, 7]

/-- The populations removed from the truncated network (L2/3E … L5I). -/
def excluded_popids : List ℕ := [0, 1, 2, 3, 4, 5]

/-! ## The external-input compensation calculator -/

/-- Body of the compensation loop for one included target population, given
its weight-mean row and in-degree row.  Mirrors the notebook:
the thalamocortical column is dropped (`[:-1]`), weights are multiplied
elementwise with the synaptic time constants, normalised by the external
weight times the external synaptic time constant, scaled by the reference
rates relative to the background rate and by the recurrent in-degrees, and
the entries at the excluded population indices are summed. -/
def indegreeModificationRow (wRow kRow tauSyn rates : List ℚ)
    (wExt tauSynEx bg : ℚ) (excluded : List ℕ) : ℚ :=
  let weights_tau_syn_rec := List.zipWith (fun w t => w * t) wRow.dropLast tauSyn
  let weight_tau_syn_ext := wExt * tauSynEx
  let frac_weights_tau_syn := weights_tau_syn_rec.map (fun w => w / weight_tau_syn_ext)
  let frac_rates := rates.map (fun r => r / bg)
  let rec_input := List.zipWith (fun a b => a * b)
    (List.zipWith (fun a b => a * b) frac_rates frac_weights_tau_syn) kRow.dropLast
  (excluded.map (fun j => rec_input.getD j 0)).sum

/-- `indegree_modifications`: one compensation sum per included population. -/
def indegreeModifications (nd : NetDict) (p : NeuronParams) (rates : List ℚ) :
    List ℚ :=
  included_popids.map (fun i =>
    indegreeModificationRow (nd.weight_matrix_mean.getD i [])
      (nd.indegrees.getD i []) (tau_syn p) rates
      nd.weight_ext p.tau_syn_ex nd.bg_rate excluded_popids)

/-- `K_ext_L6E`: adjusted external in-degree of L6E. -/
def K_ext_L6E (nd : NetDict) (p : NeuronParams) (rates : List ℚ) : ℤ :=
  roundHalfEven (nd.ext_indegrees.getD 6 0 + (indegreeModifications nd p rates).getD 0 0)

/-- `K_ext_L6I`: adjusted external in-degree of L6I. -/
def K_ext_L6I (nd : NetDict) (p : NeuronParams) (rates : List ℚ) : ℤ :=
  roundHalfEven (nd.ext_indegrees.getD 7 0 + (indegreeModifications nd p rates).getD 1 0)

/-- Adjusted external in-degree from one row's data: baseline external
in-degree plus the compensation sum, rounded as `np.round` does. -/
def adjustedIndegreeRow (base : ℚ) (wRow kRow tauSyn rates : List ℚ)
    (wExt tauSynEx bg : ℚ) (excluded : List ℕ) : ℤ :=
  roundHalfEven (base + indegreeModificationRow wRow kRow tauSyn rates wExt tauSynEx bg excluded)

/-! ## Structure lemmas -/

lemma list_shape_succ (l : List ℚ) (n : ℕ) (h : l.length = n + 1) :
    ∃ a t, l = a :: t ∧ t.length = n := by
  cases l with
  | nil => exact absurd h (by simp)
  | cons a t => exact ⟨a, t, rfl, by simpa using h⟩

lemma list_len_eight (l : List ℚ) (h : l.length = 8) :
    ∃ a0 a1 a2 a3 a4 a5 a6 a7, l = [a0, a1, a2, a3, a4, a5, a6, a7] := by
  obtain ⟨a0, l, rfl, h7⟩ := list_shape_succ l 7 h
  obtain ⟨a1, l, rfl, h6⟩ := list_shape_succ l 6 h7
  obtain ⟨a2, l, rfl, h5⟩ := list_shape_succ l 5 h6
  obtain ⟨a3, l, rfl, h4⟩ := list_shape_succ l 4 h5
  obtain ⟨a4, l, rfl, h3⟩ := list_shape_succ l 3 h4
  obtain ⟨a5, l, rfl, h2⟩ := list_shape_succ l 2 h3
  obtain ⟨a6, l, rfl, h1⟩ := list_shape_succ l 1 h2
  obtain ⟨a7, l, rfl, h0⟩ := list_shape_succ l 0 h1
  rw [List.length_eq_zero.mp h0]
  exact ⟨a0, a1, a2, a3, a4, a5, a6, a7, rfl⟩

lemma list_len_nine (l : List ℚ) (h : l.length = 9) :
    ∃ a0 a1 a2 a3 a4 a5 a6 a7 a8, l = [a0, a1, a2, a3, a4, a5, a6, a7, a8] := by
  obtain ⟨a0, l, rfl, h8⟩ := list_shape_succ l 8 h
  obtain ⟨a1, a2, a3, a4, a5, a6, a7, a8, rfl⟩ := list_len_eight l h8
  exact ⟨a0, a1, a2, a3, a4, a5, a6, a7, a8, rfl⟩

/-- Closed form of the compensation sum for the excluded populations 0–5:
it is exactly the sum, over the excluded source populations, of the
weight-times-time-constant ratio, scaled by the relative reference rate and
the recurrent in-degree. -/
lemma indegreeModificationRow_eq_sum (wRow kRow tauSyn rates : List ℚ)
    (wExt tauSynEx bg : ℚ)
    (hw : wRow.length = 9) (hk : kRow.length = 9)
    (ht : tauSyn.length = 8) (hr : rates.length = 8) :
    indegreeModificationRow wRow kRow tauSyn rates wExt tauSynEx bg excluded_popids =
      ∑ j ∈ Finset.range 6,
        (wRow.getD j 0 * tauSyn.getD j 0) / (wExt * tauSynEx)
          * (rates.getD j 0 / bg) * kRow.getD j 0 := by
  obtain ⟨w0, w1, w2, w3, w4, w5, w6, w7, w8, rfl⟩ := list_len_nine wRow hw
  obtain ⟨k0, k1, k2, k3, k4, k5, k6, k7, k8, rfl⟩ := list_len_nine kRow hk
  obtain ⟨t0, t1, t2, t3, t4, t5, t6, t7, rfl⟩ := list_len_eight tauSyn ht
  obtain ⟨r0, r1, r2, r3, r4, r5, r6, r7, rfl⟩ := list_len_eight rates hr
  simp [indegreeModificationRow, excluded_popids, Finset.sum_range_succ, List.getD]
  ring

lemma tau_syn_length (p : NeuronParams) : (tau_syn p).length = 8 := rfl

lemma indegreeModifications_getD_zero (nd : NetDict) (p : NeuronParams)
    (rates : List ℚ) :
    (indegreeModifications nd p rates).getD 0 0 =
      indegreeModificationRow (nd.weight_matrix_mean.getD 6 [])
        (nd.indegrees.getD 6 []) (tau_syn p) rates
        nd.weight_ext p.tau_syn_ex nd.bg_rate excluded_popids := rfl

lemma indegreeModifications_getD_one (nd : NetDict) (p : NeuronParams)
    (rates : List ℚ) :
    (indegreeModifications nd p rates).getD 1 0 =
      indegreeModificationRow (nd.weight_matrix_mean.getD 7 [])
        (nd.indegrees.getD 7 []) (tau_syn p) rates
        nd.weight_ext p.tau_syn_ex nd.bg_rate excluded_popids := rfl

/-! ## Concrete inputs used by the spec's worked example -/

/-- Weight-mean row of the spec's worked example: a single contributing
excluded population with mean weight 10. -/
def exampleWRow : List ℚ := [10, 0, 0, 0, 0, 0, 0, 0, 0]

/-- In-degree row of the spec's worked example: recurrent in-degree 100. -/
def exampleKRow : List ℚ := [100, 0, 0, 0, 0, 0, 0, 0, 0]

/-- Synaptic time constants of the spec's worked example: 2 for every
excitatory entry, matching the contributing population's tau_syn = 2. -/
def exampleTauSyn : List ℚ := [2, 8, 2, 8, 2, 8, 2, 8]

/-- Reference rates of the spec's worked example: rate 2 for the single
contributing population. -/
def exampleRates : List ℚ := [2, 0, 0, 0, 0, 0, 0, 0]

/-- Concrete parameter table exercising the compensation calculator:
rows 6 and 7 carry the worked example's weight and in-degree data and a
baseline external in-degree of 3. -/
def exampleNetDict : NetDict :=
  { num_neurons := [0, 0, 0, 0, 0, 0, 1000, 1000],
    extent := 4,
    indegrees := [[], [], [], [], [], [], exampleKRow, exampleKRow],
    beta := [],
    mask_scaling := 1,
    weight_matrix_mean := [[], [], [], [], [], [], exampleWRow, exampleWRow],
    weight_rel_std := 1/10,
    delay_offset_exc_inh := [1, 1],
    prop_speed_exc_inh := [1, 1],
    bg_rate := 1,
    weight_ext := 1,
    ext_indegrees := [0, 0, 0, 0, 0, 0, 3, 3] }

/-- C1: for each included target population (L6E at index 6, L6I at index 7)
the compensation sum equals the sum over the excluded source populations
j ∈ {0,…,5} of (mean_weight(i,j)·tau_syn(j))/(w_ext·tau_syn_ext) ·
(rate(j)/bg_rate) · indegree(i,j), and the adjusted external in-degree is
that sum added to the baseline and rounded; in the spec's worked example
the single contribution is 2000 and the adjusted in-degree is
round(3 + 2000) = 2003. -/
theorem compensation_sum_and_adjustment_formula :
    (∀ (nd : NetDict) (p : NeuronParams) (rates : List ℚ),
      (nd.weight_matrix_mean.getD 6 []).length = 9 →
      (nd.indegrees.getD 6 []).length = 9 →
      (nd.weight_matrix_mean.getD 7 []).length = 9 →
      (nd.indegrees.getD 7 []).length = 9 →
      rates.length = 8 →
      ((indegreeModifications nd p rates).getD 0 0 =
          ∑ j ∈ Finset.range 6,
            ((nd.weight_matrix_mean.getD 6 []).getD j 0 * (tau_syn p).getD j 0)
              / (nd.weight_ext * p.tau_syn_ex)
              * (rates.getD j 0 / nd.bg_rate)
              * ((nd.indegrees.getD 6 []).getD j 0)) ∧
      ((indegreeModifications nd p rates).getD 1 0 =
          ∑ j ∈ Finset.range 6,
            ((nd.weight_matrix_mean.getD 7 []).getD j 0 * (tau_syn p).getD j 0)
              / (nd.weight_ext * p.tau_syn_ex)
              * (rates.getD j 0 / nd.bg_rate)
              * ((nd.indegrees.getD 7 []).getD j 0)) ∧
      K_ext_L6E nd p rates =
        roundHalfEven (nd.ext_indegrees.getD 6 0 +
          ∑ j ∈ Finset.range 6,
            ((nd.weight_matrix_mean.getD 6 []).getD j 0 * (tau_syn p).getD j 0)
              / (nd.weight_ext * p.tau_syn_ex)
              * (rates.getD j 0 / nd.bg_rate)
              * ((nd.indegrees.getD 6 []).getD j 0)) ∧
      K_ext_L6I nd p rates =
        roundHalfEven (nd.ext_indegrees.getD 7 0 +
          ∑ j ∈ Finset.range 6,
            ((nd.weight_matrix_mean.getD 7 []).getD j 0 * (tau_syn p).getD j 0)
              / (nd.weight_ext * p.tau_syn_ex)
              * (rates.getD j 0 / nd.bg_rate)
              * ((nd.indegrees.getD 7 []).getD j 0))) ∧
    indegreeModificationRow exampleWRow exampleKRow exampleTauSyn exampleRates 1 2 1 [0] = 2000 ∧
    adjustedIndegreeRow 3 exampleWRow exampleKRow exampleTauSyn exampleRates 1 2 1 [0] = 2003 := by
  refine ⟨fun nd p rates hw6 hk6 hw7 hk7 hr => ?_, ?_, ?_⟩
  · have h6 := indegreeModificationRow_eq_sum (nd.weight_matrix_mean.getD 6 [])
      (nd.indegrees.getD 6 []) (tau_syn p) rates nd.weight_ext p.tau_syn_ex nd.bg_rate
      hw6 hk6 (tau_syn_length p) hr
    have h7 := indegreeModificationRow_eq_sum (nd.weight_matrix_mean.getD 7 [])
      (nd.indegrees.getD 7 []) (tau_syn p) rates nd.weight_ext p.tau_syn_ex nd.bg_rate
      hw7 hk7 (tau_syn_length p) hr
    refine ⟨?_, ?_, ?_, ?_⟩
    · rw [indegreeModifications_getD_zero, h6]
    · rw [indegreeModifications_getD_one, h7]
    · rw [K_ext_L6E, indegreeModifications_getD_zero, h6]
    · rw [K_ext_L6I, indegreeModifications_getD_one, h7]
  · norm_num [indegreeModificationRow, exampleWRow, exampleKRow, exampleTauSyn, exampleRates]
  · have h : indegreeModificationRow exampleWRow exampleKRow exampleTauSyn exampleRates
        1 2 1 [0] = 2000 := by
      norm_num [indegreeModificationRow, exampleWRow, exampleKRow, exampleTauSyn, exampleRates]
    rw [adjustedIndegreeRow, h]
    have h2 : ((3 : ℚ) + 2000) = ((2003 : ℤ) : ℚ) := by norm_num
    rw [h2, roundHalfEven_intCast]

/-- Witness for `compensation_sum_and_adjustment_formula` on the concrete
table `exampleNetDict`. -/
theorem compensation_sum_and_adjustment_formula_witness :
    (indegreeModifications exampleNetDict neuron_params exampleRates).getD 0 0 =
      ∑ j ∈ Finset.range 6,
        ((exampleNetDict.weight_matrix_mean.getD 6 []).getD j 0
            * (tau_syn neuron_params).getD j 0)
          / (exampleNetDict.weight_ext * neuron_params.tau_syn_ex)
          * (exampleRates.getD j 0 / exampleNetDict.bg_rate)
          * ((exampleNetDict.indegrees.getD 6 []).getD j 0) :=
  (compensation_sum_and_adjustment_formula.1 exampleNetDict neuron_params exampleRates
    rfl rfl rfl rfl rfl).1

/-- C2: the adjusted external in-degree preserves the first moment of the
synaptic drive: the external drive w_ext·tau_ext·bg_rate times the adjusted
in-degree equals the original external drive plus the summed mean drive of
the excluded populations, up to the rounding error of at most half a unit
of external in-degree; exact up to that rounding only (variance is not
matched). -/
theorem adjusted_indegree_preserves_first_moment :
    ∀ (wRow kRow tauSyn rates : List ℚ) (wExt tauSynEx bg base : ℚ),
      wRow.length = 9 → kRow.length = 9 → tauSyn.length = 8 → rates.length = 8 →
      bg ≠ 0 → wExt ≠ 0 → tauSynEx ≠ 0 →
      ∃ ε : ℚ, |ε| ≤ 1/2 ∧
        wExt * tauSynEx * bg *
            ((adjustedIndegreeRow base wRow kRow tauSyn rates wExt tauSynEx bg
              excluded_popids : ℤ) : ℚ) =
          wExt * tauSynEx * bg * base
            + (∑ j ∈ Finset.range 6,
                wRow.getD j 0 * tauSyn.getD j 0 * rates.getD j 0 * kRow.getD j 0)
            + wExt * tauSynEx * bg * ε := by
  intro wRow kRow tauSyn rates wExt tauSynEx bg base hw hk ht hr hbg hwe hte
  set S := indegreeModificationRow wRow kRow tauSyn rates wExt tauSynEx bg excluded_popids with hSdef
  refine ⟨(roundHalfEven (base + S) : ℚ) - (base + S), ?_, ?_⟩
  · simpa using abs_roundHalfEven_sub_le (base + S)
  · have hS : wExt * tauSynEx * bg * S =
        ∑ j ∈ Finset.range 6,
          wRow.getD j 0 * tauSyn.getD j 0 * rates.getD j 0 * kRow.getD j 0 := by
      rw [hSdef, indegreeModificationRow_eq_sum wRow kRow tauSyn rates wExt tauSynEx bg hw hk ht hr,
        Finset.mul_sum]
      refine Finset.sum_congr rfl (fun j _ => ?_)
      field_simp
    show wExt * tauSynEx * bg * ((roundHalfEven (base + S) : ℤ) : ℚ) = _
    linear_combination hS

/-- Witness for `adjusted_indegree_preserves_first_moment` on the worked
example's row data. -/
theorem adjusted_indegree_preserves_first_moment_witness :
    ∃ ε : ℚ, |ε| ≤ 1/2 ∧
      1 * 2 * 1 *
          ((adjustedIndegreeRow 3 exampleWRow exampleKRow exampleTauSyn exampleRates
            1 2 1 excluded_popids : ℤ) : ℚ) =
        1 * 2 * 1 * 3
          + (∑ j ∈ Finset.range 6,
              exampleWRow.getD j 0 * exampleTauSyn.getD j 0
                * exampleRates.getD j 0 * exampleKRow.getD j 0)
          + 1 * 2 * 1 * ε :=
  adjusted_indegree_preserves_first_moment exampleWRow exampleKRow exampleTauSyn exampleRates
    1 2 1 3 rfl rfl rfl rfl (by norm_num) (by norm_num) (by norm_num)

/-! ## Evaluation lemmas for the rounding function -/

lemma roundHalfEven_eq_self_of_lt_half {q : ℚ} {k : ℤ} (h1 : (k : ℚ) ≤ q)
    (h2 : q < (k : ℚ) + 1/2) : roundHalfEven q = k := by
  have hfl : ⌊q⌋ = k := Int.floor_eq_iff.mpr ⟨h1, by linarith⟩
  unfold roundHalfEven
  rw [hfl]
  rw [if_pos (by linarith)]

lemma roundHalfEven_eq_add_one_of_gt_half {q : ℚ} {k : ℤ} (h1 : (k : ℚ) + 1/2 < q)
    (h2 : q < (k : ℚ) + 1) : roundHalfEven q = k + 1 := by
  have hfl : ⌊q⌋ = k := Int.floor_eq_iff.mpr ⟨by linarith, by linarith⟩
  unfold roundHalfEven
  rw [hfl]
  rw [if_neg (by linarith), if_pos (by linarith)]

lemma tau_syn_eq (p : NeuronParams) :
    tau_syn p = [p.tau_syn_ex, p.tau_syn_in, p.tau_syn_ex, p.tau_syn_in,
      p.tau_syn_ex, p.tau_syn_in, p.tau_syn_ex, p.tau_syn_in] := rfl

/-- An all-zero weight/in-degree row. -/
def zeroRow9 : List ℚ := [0, 0, 0, 0, 0, 0, 0, 0, 0]

/-- Parameter table whose baseline external in-degree of L6E is 5/2 and whose
compensation sum vanishes, so the pre-rounding total sits exactly halfway
between 2 and 3. -/
def halfNetDict : NetDict :=
  { num_neurons := [0, 0, 0, 0, 0, 0, 1000, 1000],
    extent := 4,
    indegrees := [[], [], [], [], [], [], zeroRow9, zeroRow9],
    beta := [],
    mask_scaling := 1,
    weight_matrix_mean := [[], [], [], [], [], [], zeroRow9, zeroRow9],
    weight_rel_std := 1/10,
    delay_offset_exc_inh := [1, 1],
    prop_speed_exc_inh := [1, 1],
    bg_rate := 1,
    weight_ext := 1,
    ext_indegrees := [0, 0, 0, 0, 0, 0, 5/2, 5/2] }

/-- C3 counterexample: with baseline 5/2 and compensation sum 0 the total is
exactly halfway between 2 and 3, yet `np.round` returns the smaller (even)
integer 2, not the larger one — the calculator does not round half up. -/
theorem round_half_up_counterexample :
    halfNetDict.ext_indegrees.getD 6 0 +
        (indegreeModifications halfNetDict neuron_params rates_meso).getD 0 0 = 2 + 1/2 ∧
    K_ext_L6E halfNetDict neuron_params rates_meso = 2 ∧
    K_ext_L6E halfNetDict neuron_params rates_meso ≠ 3 := by
  have hmod : (indegreeModifications halfNetDict neuron_params rates_meso).getD 0 0 = 0 := by
    rw [indegreeModifications_getD_zero]
    show indegreeModificationRow zeroRow9 zeroRow9 (tau_syn neuron_params) rates_meso
      1 2 1 excluded_popids = 0
    rw [tau_syn_eq]
    norm_num [indegreeModificationRow, excluded_popids, neuron_params, rates_meso, zeroRow9]
  have harg : halfNetDict.ext_indegrees.getD 6 0 +
      (indegreeModifications halfNetDict neuron_params rates_meso).getD 0 0 = 2 + 1/2 := by
    rw [hmod]
    show (5/2 : ℚ) + 0 = 2 + 1/2
    norm_num
  have hk : K_ext_L6E halfNetDict neuron_params rates_meso = 2 := by
    rw [K_ext_L6E, harg]
    have h2 : (2 : ℚ) + 1/2 = ((2 : ℤ) : ℚ) + 1/2 := by norm_num
    rw [h2, roundHalfEven_int_add_half]
    norm_num
  exact ⟨harg, hk, by rw [hk]; norm_num⟩

/-- C3 amended: the rounding step rounds half to even (`np.round`): when the
baseline plus the compensation sum is exactly halfway between k and k + 1,
the adjusted external in-degree is whichever of the two is even. -/
theorem round_ties_to_even :
    ∀ (base : ℚ) (wRow kRow tauSyn rates : List ℚ) (wExt tauSynEx bg : ℚ)
      (excluded : List ℕ) (k : ℤ),
      base + indegreeModificationRow wRow kRow tauSyn rates wExt tauSynEx bg excluded
        = (k : ℚ) + 1/2 →
      adjustedIndegreeRow base wRow kRow tauSyn rates wExt tauSynEx bg excluded =
        if k % 2 = 0 then k else k + 1 := by
  intro base wRow kRow tauSyn rates wExt tauSynEx bg excluded k h
  rw [adjustedIndegreeRow, h, roundHalfEven_int_add_half]

/-- Witness for `round_ties_to_even` at total 5/2: the result is the even
neighbour 2. -/
theorem round_ties_to_even_witness :
    adjustedIndegreeRow (5/2) zeroRow9 zeroRow9 exampleTauSyn exampleRates 1 2 1
      excluded_popids = 2 := by
  have h := round_ties_to_even (5/2) zeroRow9 zeroRow9 exampleTauSyn exampleRates 1 2 1
    excluded_popids 2 (by norm_num [indegreeModificationRow, zeroRow9, exampleTauSyn,
      exampleRates, excluded_popids])
  simpa using h

/-- C4 counterexample: with no excluded populations the compensation sum is
zero, but the adjusted in-degree is the rounded baseline, so a non-integer
stored baseline external in-degree of 23/10 yields 2 ≠ 23/10 — the claimed
exact equality fails for non-integer baselines. -/
theorem empty_exclusion_identity_counterexample :
    indegreeModificationRow exampleWRow exampleKRow exampleTauSyn exampleRates 1 2 1 [] = 0 ∧
    adjustedIndegreeRow (23/10) exampleWRow exampleKRow exampleTauSyn exampleRates 1 2 1 [] = 2 ∧
    ((2 : ℤ) : ℚ) ≠ 23/10 := by
  refine ⟨rfl, ?_, by norm_num⟩
  rw [adjustedIndegreeRow]
  have h0 : indegreeModificationRow exampleWRow exampleKRow exampleTauSyn
      exampleRates 1 2 1 [] = 0 := rfl
  rw [h0, add_zero]
  exact roundHalfEven_eq_self_of_lt_half (k := 2) (by norm_num) (by norm_num)

/-- C4 amended: with no excluded populations the compensation sum is zero and
the adjusted external in-degree is the rounded baseline; it equals the
original baseline exactly whenever that baseline is an integer. -/
theorem empty_exclusion_rounds_baseline :
    (∀ (wRow kRow tauSyn rates : List ℚ) (wExt tauSynEx bg : ℚ),
      indegreeModificationRow wRow kRow tauSyn rates wExt tauSynEx bg [] = 0) ∧
    (∀ (base : ℚ) (wRow kRow tauSyn rates : List ℚ) (wExt tauSynEx bg : ℚ) (k : ℤ),
      base = (k : ℚ) →
      adjustedIndegreeRow base wRow kRow tauSyn rates wExt tauSynEx bg [] = k) := by
  refine ⟨fun _ _ _ _ _ _ _ => rfl, ?_⟩
  intro base wRow kRow tauSyn rates wExt tauSynEx bg k h
  rw [adjustedIndegreeRow, h]
  show roundHalfEven ((k : ℚ) + 0) = k
  rw [add_zero, roundHalfEven_intCast]

/-- Witness for `empty_exclusion_rounds_baseline` at integer baseline 7. -/
theorem empty_exclusion_rounds_baseline_witness :
    adjustedIndegreeRow 7 exampleWRow exampleKRow exampleTauSyn exampleRates 1 2 1 [] = 7 :=
  empty_exclusion_rounds_baseline.2 7 exampleWRow exampleKRow exampleTauSyn exampleRates
    1 2 1 7 (by norm_num)

/-- Parameter table with a strongly negative mean weight from the first
excluded population and baseline external in-degree 0. -/
def negNetDict : NetDict :=
  { num_neurons := [0, 0, 0, 0, 0, 0, 1000, 1000],
    extent := 4,
    indegrees := [[], [], [], [], [], [], exampleKRow, exampleKRow],
    beta := [],
    mask_scaling := 1,
    weight_matrix_mean := [[], [], [], [], [], [],
      [-10, 0, 0, 0, 0, 0, 0, 0, 0], [-10, 0, 0, 0, 0, 0, 0, 0, 0]],
    weight_rel_std := 1/10,
    delay_offset_exc_inh := [1, 1],
    prop_speed_exc_inh := [1, 1],
    bg_rate := 1,
    weight_ext := 1,
    ext_indegrees := [0, 0, 0, 0, 0, 0, 0, 0] }

/-- C6 counterexample: the calculator accepts a table with a negative mean
weight and produces a negative adjusted external in-degree (−376), so the
output is not non-negative for every accepted input. -/
theorem adjusted_indegree_negative_counterexample :
    K_ext_L6E negNetDict neuron_params rates_meso = -376 ∧
    K_ext_L6E negNetDict neuron_params rates_meso < 0 := by
  have hmod : (indegreeModifications negNetDict neuron_params rates_meso).getD 0 0 = -376 := by
    rw [indegreeModifications_getD_zero]
    show indegreeModificationRow [-10, 0, 0, 0, 0, 0, 0, 0, 0] exampleKRow
      (tau_syn neuron_params) rates_meso 1 2 1 excluded_popids = -376
    rw [tau_syn_eq]
    norm_num [indegreeModificationRow, excluded_popids, neuron_params, rates_meso, exampleKRow]
  have hk : K_ext_L6E negNetDict neuron_params rates_meso = -376 := by
    rw [K_ext_L6E, hmod]
    have h : negNetDict.ext_indegrees.getD 6 0 + (-376 : ℚ) = ((-376 : ℤ) : ℚ) := by
      show (0 : ℚ) + (-376 : ℚ) = ((-376 : ℤ) : ℚ)
      norm_num
    rw [h, roundHalfEven_intCast]
  exact ⟨hk, by rw [hk]; norm_num⟩

/-- C6 amended: the adjusted external in-degree is an integer by
construction; it is non-negative whenever the baseline plus the compensation
sum is at least −1/2 (in particular for the physically meaningful tables in
which that total is non-negative). -/
theorem adjusted_indegree_nonneg_of_total :
    ∀ (nd : NetDict) (p : NeuronParams) (rates : List ℚ),
      (-(1/2) ≤ nd.ext_indegrees.getD 6 0 +
          (indegreeModifications nd p rates).getD 0 0 →
        0 ≤ K_ext_L6E nd p rates) ∧
      (-(1/2) ≤ nd.ext_indegrees.getD 7 0 +
          (indegreeModifications nd p rates).getD 1 0 →
        0 ≤ K_ext_L6I nd p rates) := by
  intro nd p rates
  exact ⟨fun h => roundHalfEven_nonneg h, fun h => roundHalfEven_nonneg h⟩

/-- Witness for `adjusted_indegree_nonneg_of_total` on the worked example's
table. -/
theorem adjusted_indegree_nonneg_of_total_witness :
    0 ≤ K_ext_L6E exampleNetDict neuron_params exampleRates :=
  (adjusted_indegree_nonneg_of_total exampleNetDict neuron_params exampleRates).1
    (by
      show -(1/2) ≤ (3 : ℚ) + indegreeModificationRow exampleWRow exampleKRow
        (tau_syn neuron_params) exampleRates 1 2 1 excluded_popids
      rw [tau_syn_eq]
      norm_num [indegreeModificationRow, excluded_popids, neuron_params, exampleRates,
        exampleWRow, exampleKRow])

/-- C5: with positive external weight, positive synaptic time constants,
positive background rate and non-negative recurrent in-degrees, the adjusted
external in-degree is monotonically non-decreasing in an excluded
population's reference rate when the mean weight from it is positive, and
non-increasing when that weight is negative. -/
theorem adjusted_indegree_monotone_in_rate :
    ∀ (base : ℚ) (wRow kRow tauSyn rates : List ℚ) (wExt tauSynEx bg : ℚ) (j : ℕ) (r' : ℚ),
      wRow.length = 9 → kRow.length = 9 → tauSyn.length = 8 → rates.length = 8 →
      0 < wExt → 0 < tauSynEx → 0 < bg →
      (∀ t ∈ tauSyn, 0 < t) → (∀ k ∈ kRow, 0 ≤ k) →
      j < 6 →
      rates.getD j 0 ≤ r' →
      (0 < wRow.getD j 0 →
        adjustedIndegreeRow base wRow kRow tauSyn rates wExt tauSynEx bg excluded_popids
          ≤ adjustedIndegreeRow base wRow kRow tauSyn (rates.set j r') wExt tauSynEx bg
              excluded_popids) ∧
      (wRow.getD j 0 < 0 →
        adjustedIndegreeRow base wRow kRow tauSyn (rates.set j r') wExt tauSynEx bg
            excluded_popids
          ≤ adjustedIndegreeRow base wRow kRow tauSyn rates wExt tauSynEx bg
              excluded_popids) := by
  intro base wRow kRow tauSyn rates wExt tauSynEx bg j r' hw hk ht hr hwe hte hbg htpos hknn hj hle
  have hset : (rates.set j r').length = 8 := by simp [hr]
  have hsum := indegreeModificationRow_eq_sum wRow kRow tauSyn rates wExt tauSynEx bg hw hk ht hr
  have hsum' := indegreeModificationRow_eq_sum wRow kRow tauSyn (rates.set j r')
    wExt tauSynEx bg hw hk ht hset
  have hgetj : (rates.set j r').getD j 0 = r' := by
    rw [List.getD_eq_getElem _ _ (by rw [List.length_set]; omega)]
    simp
  have hgetne : ∀ i, i < 6 → i ≠ j → (rates.set j r').getD i 0 = rates.getD i 0 := by
    intro i hi hij
    have h2 : i < (rates.set j r').length := by rw [List.length_set]; omega
    rw [List.getD_eq_getElem (rates.set j r') 0 h2,
      List.getD_eq_getElem rates 0 (show i < rates.length by omega)]
    exact List.getElem_set_ne (Ne.symm hij) h2
  have htj : 0 < tauSyn.getD j 0 := by
    refine htpos _ ?_
    rw [List.getD_eq_getElem tauSyn 0 (show j < tauSyn.length by omega)]
    exact List.getElem_mem (by omega)
  have hkj : 0 ≤ kRow.getD j 0 := by
    refine hknn _ ?_
    rw [List.getD_eq_getElem kRow 0 (show j < kRow.length by omega)]
    exact List.getElem_mem (by omega)
  have hdiv : rates.getD j 0 / bg ≤ r' / bg := by gcongr
  constructor
  · intro hwpos
    unfold adjustedIndegreeRow
    apply roundHalfEven_mono
    apply add_le_add_left
    rw [hsum, hsum']
    apply Finset.sum_le_sum
    intro i hi
    rw [Finset.mem_range] at hi
    by_cases hij : i = j
    · subst hij
      rw [hgetj]
      have hA : 0 ≤ wRow.getD i 0 * tauSyn.getD i 0 / (wExt * tauSynEx) :=
        div_nonneg (mul_nonneg hwpos.le htj.le) (mul_nonneg hwe.le hte.le)
      exact mul_le_mul_of_nonneg_right (mul_le_mul_of_nonneg_left hdiv hA) hkj
    · rw [hgetne i hi hij]
  · intro hwneg
    unfold adjustedIndegreeRow
    apply roundHalfEven_mono
    apply add_le_add_left
    rw [hsum, hsum']
    apply Finset.sum_le_sum
    intro i hi
    rw [Finset.mem_range] at hi
    by_cases hij : i = j
    · subst hij
      rw [hgetj]
      have hA : wRow.getD i 0 * tauSyn.getD i 0 / (wExt * tauSynEx) ≤ 0 :=
        div_nonpos_iff.mpr (Or.inr ⟨mul_nonpos_iff.mpr (Or.inr ⟨hwneg.le, htj.le⟩),
          (mul_nonneg hwe.le hte.le)⟩)
      exact mul_le_mul_of_nonneg_right (mul_le_mul_of_nonpos_left hdiv hA) hkj
    · rw [hgetne i hi hij]

/-- Witness for `adjusted_indegree_monotone_in_rate`: raising the first
excluded population's rate from 2 to 5 under the worked example's positive
weight does not decrease the adjusted in-degree. -/
theorem adjusted_indegree_monotone_in_rate_witness :
    adjustedIndegreeRow 3 exampleWRow exampleKRow exampleTauSyn exampleRates
        1 2 1 excluded_popids
      ≤ adjustedIndegreeRow 3 exampleWRow exampleKRow exampleTauSyn
          (exampleRates.set 0 5) 1 2 1 excluded_popids :=
  (adjusted_indegree_monotone_in_rate 3 exampleWRow exampleKRow exampleTauSyn exampleRates
      1 2 1 0 5 rfl rfl rfl rfl (by norm_num) (by norm_num) (by norm_num)
      (by intro t htm; fin_cases htm <;> norm_num)
      (by intro k hkm; fin_cases hkm <;> norm_num)
      (by norm_num) (by norm_num [exampleRates])).1
    (by norm_num [exampleWRow])

/-! ## DC-current amplitude for a target firing rate (Tsodyks notebook) -/

/-- `I0` of the short-term-plasticity notebook: the DC amplitude computed as
V_th · C_m / tau_m / (1 − exp(−(1/f − t_ref)/tau_m)). -/
noncomputable def I0 (V_th C_m tau_m t_ref f : ℝ) : ℝ :=
  V_th * C_m / tau_m / (1 - Real.exp (-(1 / f - t_ref) / tau_m))

/-- Membrane potential of a leaky integrator with time constant `tau_m` and
capacitance `C_m`, driven by constant current `I` from the reset/leak
potential 0, a time `t` after its refractory period ends. -/
noncomputable def lifVoltage (I tau_m C_m t : ℝ) : ℝ :=
  I * tau_m / C_m * (1 - Real.exp (-t / tau_m))

/-- C7: under tau_m > 0, C_m > 0, f > 0 and 1/f > t_ref, the computed DC
amplitude satisfies V_th = (I0·tau_m/C_m)·(1 − exp(−(1/f − t_ref)/tau_m)):
the driven leaky integrator starting from 0 reaches threshold exactly
1/f − t_ref after its refractory period, giving spike period 1/f. -/
theorem dc_current_elicits_target_rate :
    ∀ V_th C_m tau_m t_ref f : ℝ,
      0 < tau_m → 0 < C_m → 0 < f → t_ref < 1 / f →
      V_th = I0 V_th C_m tau_m t_ref f * tau_m / C_m
          * (1 - Real.exp (-(1 / f - t_ref) / tau_m)) ∧
      lifVoltage (I0 V_th C_m tau_m t_ref f) tau_m C_m (1 / f - t_ref) = V_th := by
  intro V_th C_m tau_m t_ref f htau hC hf href
  have hx : -(1 / f - t_ref) / tau_m < 0 := by
    apply div_neg_of_neg_of_pos _ htau
    linarith
  have hexp : Real.exp (-(1 / f - t_ref) / tau_m) < 1 := by
    calc Real.exp (-(1 / f - t_ref) / tau_m) < Real.exp 0 := Real.exp_lt_exp.mpr hx
      _ = 1 := Real.exp_zero
  have hden : 1 - Real.exp (-(1 / f - t_ref) / tau_m) ≠ 0 := by linarith
  have hmain : lifVoltage (I0 V_th C_m tau_m t_ref f) tau_m C_m (1 / f - t_ref) = V_th := by
    unfold lifVoltage I0
    set E := Real.exp (-(1 / f - t_ref) / tau_m) with hE
    field_simp
    ring
  refine ⟨?_, hmain⟩
  have : lifVoltage (I0 V_th C_m tau_m t_ref f) tau_m C_m (1 / f - t_ref) =
      I0 V_th C_m tau_m t_ref f * tau_m / C_m
        * (1 - Real.exp (-(1 / f - t_ref) / tau_m)) := rfl
  rw [← this, hmain]

/-- Witness for `dc_current_elicits_target_rate` at the notebook's values
V_th = 15 mV, C_m = 400, tau_m = 40 ms, t_ref = 2 ms, f = 0.02 kHz. -/
theorem dc_current_elicits_target_rate_witness :
    lifVoltage (I0 15 400 40 2 0.02) 40 400 (1 / 0.02 - 2) = 15 :=
  (dc_current_elicits_target_rate 15 400 40 2 0.02 (by norm_num) (by norm_num)
    (by norm_num) (by norm_num)).2

/-- C8: the compensation depends only on the excluded populations' data.
Two runs that agree on the background rate, the external weight, the
baseline external in-degrees and the entries of the weight-mean rows,
in-degree rows and reference-rate vector at the excluded indices 0–5
produce identical modifications and adjusted in-degrees, whatever the
included populations' (indices 6, 7) and thalamocortical (index 8) entries
are. -/
theorem compensation_depends_only_on_excluded_data :
    ∀ (nd nd' : NetDict) (p : NeuronParams) (rates rates' : List ℚ),
      nd.bg_rate = nd'.bg_rate →
      nd.weight_ext = nd'.weight_ext →
      nd.ext_indegrees.getD 6 0 = nd'.ext_indegrees.getD 6 0 →
      nd.ext_indegrees.getD 7 0 = nd'.ext_indegrees.getD 7 0 →
      (nd.weight_matrix_mean.getD 6 []).length = 9 →
      (nd'.weight_matrix_mean.getD 6 []).length = 9 →
      (nd.weight_matrix_mean.getD 7 []).length = 9 →
      (nd'.weight_matrix_mean.getD 7 []).length = 9 →
      (nd.indegrees.getD 6 []).length = 9 →
      (nd'.indegrees.getD 6 []).length = 9 →
      (nd.indegrees.getD 7 []).length = 9 →
      (nd'.indegrees.getD 7 []).length = 9 →
      rates.length = 8 → rates'.length = 8 →
      (∀ j, j < 6 → rates.getD j 0 = rates'.getD j 0) →
      (∀ j, j < 6 → (nd.weight_matrix_mean.getD 6 []).getD j 0 =
        (nd'.weight_matrix_mean.getD 6 []).getD j 0) →
      (∀ j, j < 6 → (nd.weight_matrix_mean.getD 7 []).getD j 0 =
        (nd'.weight_matrix_mean.getD 7 []).getD j 0) →
      (∀ j, j < 6 → (nd.indegrees.getD 6 []).getD j 0 =
        (nd'.indegrees.getD 6 []).getD j 0) →
      (∀ j, j < 6 → (nd.indegrees.getD 7 []).getD j 0 =
        (nd'.indegrees.getD 7 []).getD j 0) →
      indegreeModifications nd p rates = indegreeModifications nd' p rates' ∧
      K_ext_L6E nd p rates = K_ext_L6E nd' p rates' ∧
      K_ext_L6I nd p rates = K_ext_L6I nd' p rates' := by
  intro nd nd' p rates rates' hbg hwe hb6 hb7 hw6 hw6' hw7 hw7' hk6 hk6' hk7 hk7' hr hr'
    heqr heqw6 heqw7 heqk6 heqk7
  have h6 : indegreeModificationRow (nd.weight_matrix_mean.getD 6 [])
      (nd.indegrees.getD 6 []) (tau_syn p) rates nd.weight_ext p.tau_syn_ex nd.bg_rate
      excluded_popids =
    indegreeModificationRow (nd'.weight_matrix_mean.getD 6 [])
      (nd'.indegrees.getD 6 []) (tau_syn p) rates' nd'.weight_ext p.tau_syn_ex nd'.bg_rate
      excluded_popids := by
    rw [indegreeModificationRow_eq_sum _ _ _ _ _ _ _ hw6 hk6 (tau_syn_length p) hr,
      indegreeModificationRow_eq_sum _ _ _ _ _ _ _ hw6' hk6' (tau_syn_length p) hr']
    refine Finset.sum_congr rfl (fun j hj => ?_)
    rw [Finset.mem_range] at hj
    rw [heqw6 j hj, heqk6 j hj, heqr j hj, hbg, hwe]
  have h7 : indegreeModificationRow (nd.weight_matrix_mean.getD 7 [])
      (nd.indegrees.getD 7 []) (tau_syn p) rates nd.weight_ext p.tau_syn_ex nd.bg_rate
      excluded_popids =
    indegreeModificationRow (nd'.weight_matrix_mean.getD 7 [])
      (nd'.indegrees.getD 7 []) (tau_syn p) rates' nd'.weight_ext p.tau_syn_ex nd'.bg_rate
      excluded_popids := by
    rw [indegreeModificationRow_eq_sum _ _ _ _ _ _ _ hw7 hk7 (tau_syn_length p) hr,
      indegreeModificationRow_eq_sum _ _ _ _ _ _ _ hw7' hk7' (tau_syn_length p) hr']
    refine Finset.sum_congr rfl (fun j hj => ?_)
    rw [Finset.mem_range] at hj
    rw [heqw7 j hj, heqk7 j hj, heqr j hj, hbg, hwe]
  refine ⟨?_, ?_, ?_⟩
  · show [indegreeModificationRow (nd.weight_matrix_mean.getD 6 [])
      (nd.indegrees.getD 6 []) (tau_syn p) rates nd.weight_ext p.tau_syn_ex nd.bg_rate
      excluded_popids,
      indegreeModificationRow (nd.weight_matrix_mean.getD 7 [])
      (nd.indegrees.getD 7 []) (tau_syn p) rates nd.weight_ext p.tau_syn_ex nd.bg_rate
      excluded_popids] = _
    rw [h6, h7]
    rfl
  · rw [K_ext_L6E, K_ext_L6E, indegreeModifications_getD_zero,
      indegreeModifications_getD_zero, h6, hb6]
  · rw [K_ext_L6I, K_ext_L6I, indegreeModifications_getD_one,
      indegreeModifications_getD_one, h7, hb7]

/-- Table agreeing with `exampleNetDict` on all excluded-population data but
with different entries for the included populations and the thalamocortical
column. -/
def variantNetDict : NetDict :=
  { num_neurons := [0, 0, 0, 0, 0, 0, 2000, 2000],
    extent := 4,
    indegrees := [[], [], [], [], [], [],
      [100, 0, 0, 0, 0, 0, 77, 77, 77], [100, 0, 0, 0, 0, 0, 77, 77, 77]],
    beta := [],
    mask_scaling := 1,
    weight_matrix_mean := [[], [], [], [], [], [],
      [10, 0, 0, 0, 0, 0, 99, 99, 99], [10, 0, 0, 0, 0, 0, 99, 99, 99]],
    weight_rel_std := 1/10,
    delay_offset_exc_inh := [1, 1],
    prop_speed_exc_inh := [1, 1],
    bg_rate := 1,
    weight_ext := 1,
    ext_indegrees := [0, 0, 0, 0, 0, 0, 3, 3] }

/-- Reference rates agreeing with `exampleRates` at indices 0–5 only. -/
def variantRates : List ℚ := [2, 0, 0, 0, 0, 0, 55, 66]

/-- Witness for `compensation_depends_only_on_excluded_data`: the two tables
differ in all included-population entries yet yield the same adjusted L6E
in-degree. -/
theorem compensation_depends_only_on_excluded_data_witness :
    K_ext_L6E exampleNetDict neuron_params exampleRates =
      K_ext_L6E variantNetDict neuron_params variantRates :=
  (compensation_depends_only_on_excluded_data exampleNetDict variantNetDict neuron_params
    exampleRates variantRates rfl rfl rfl rfl rfl rfl rfl rfl rfl rfl rfl rfl rfl rfl
    (by intro j hj; interval_cases j <;> rfl)
    (by intro j hj; interval_cases j <;> rfl)
    (by intro j hj; interval_cases j <;> rfl)
    (by intro j hj; interval_cases j <;> rfl)
    (by intro j hj; interval_cases j <;> rfl)).2.1

/-! ## Failure semantics of the compensation loop

Numpy raises on mismatched elementwise operands and on out-of-range fancy
indices; the loop itself contains no validation.  The checked variant below
returns `none` exactly where numpy would raise. -/

/-- Elementwise product, failing on mismatched lengths as numpy does. -/
def zipMulChecked (a b : List ℚ) : Option (List ℚ) :=
  if a.length = b.length then some (List.zipWith (fun x y => x * y) a b) else none

def fancyIndexChecked (a : List ℚ) (idx : List ℕ) : Option (List ℚ) :=
  idx.mapM (fun j => a.get? j)

def indegreeModificationRowChecked (wRow kRow tauSyn rates : List ℚ)
    (wExt tauSynEx bg : ℚ) (excluded : List ℕ) : Option ℚ := do
  let weights_tau_syn_rec ← zipMulChecked wRow.dropLast tauSyn
  let frac_weights_tau_syn := weights_tau_syn_rec.map (fun w => w / (wExt * tauSynEx))
  let frac_rates := rates.map (fun r => r / bg)
  let prod ← zipMulChecked frac_rates frac_weights_tau_syn
  let rec_input ← zipMulChecked prod kRow.dropLast
  let sel ← fancyIndexChecked rec_input excluded
  pure sel.sum

/-- C9: the calculator validates nothing and an index/shape error is its
only failure mode: with the shapes the notebook provides (9-entry rows,
8-entry rate and time-constant vectors) every access is in bounds and the
checked computation returns the numeric compensation sum, while a
reference-rate vector with only 7 entries makes it fail with a shape error
rather than a validation message. -/
theorem compensation_no_validation_shape_error :
    (∀ (wRow kRow tauSyn rates : List ℚ) (wExt tauSynEx bg : ℚ),
      wRow.length = 9 → kRow.length = 9 → tauSyn.length = 8 → rates.length = 8 →
      indegreeModificationRowChecked wRow kRow tauSyn rates wExt tauSynEx bg
          excluded_popids =
        some (indegreeModificationRow wRow kRow tauSyn rates wExt tauSynEx bg
          excluded_popids)) ∧
    indegreeModificationRowChecked exampleWRow exampleKRow exampleTauSyn
      [2, 0, 0, 0, 0, 0, 0] 1 2 1 excluded_popids = none := by
  constructor
  · intro wRow kRow tauSyn rates wExt tauSynEx bg hw hk ht hr
    obtain ⟨w0, w1, w2, w3, w4, w5, w6, w7, w8, rfl⟩ := list_len_nine wRow hw
    obtain ⟨k0, k1, k2, k3, k4, k5, k6, k7, k8, rfl⟩ := list_len_nine kRow hk
    obtain ⟨t0, t1, t2, t3, t4, t5, t6, t7, rfl⟩ := list_len_eight tauSyn ht
    obtain ⟨r0, r1, r2, r3, r4, r5, r6, r7, rfl⟩ := list_len_eight rates hr
    rfl
  · rfl

/-- Witness for `compensation_no_validation_shape_error` on the worked
example's rows. -/
theorem compensation_no_validation_shape_error_witness :
    indegreeModificationRowChecked exampleWRow exampleKRow exampleTauSyn exampleRates
        1 2 1 excluded_popids =
      some (indegreeModificationRow exampleWRow exampleKRow exampleTauSyn exampleRates
        1 2 1 excluded_popids) :=
  compensation_no_validation_shape_error.1 exampleWRow exampleKRow exampleTauSyn
    exampleRates 1 2 1 rfl rfl rfl rfl


/-! ## The notebook as a state machine

One field per notebook variable; every derived-quantity cell is a state
update.  The parameter table `net_dict` is one component of the state, so
the frame property "the table is only read" is the statement that the
composite update leaves that component unchanged. -/

structure MesoState where
  net_dict : NetDict
  neuron_params : NeuronParams
  N_L6E : ℤ
  N_L6I : ℤ
  K_L6E_L6E : ℚ
  K_L6E_L6I : ℚ
  K_L6I_L6E : ℚ
  K_L6I_L6I : ℚ
  beta_L6E_L6E : ℚ
  beta_L6E_L6I : ℚ
  beta_L6I_L6E : ℚ
  beta_L6I_L6I : ℚ
  mask_scaling : ℚ
  w_mean_ex : ℚ
  w_std_ex : ℚ
  w_mean_in : ℚ
  w_std_in : ℚ
  delay_offset : ℚ
  prop_speed : ℚ
  bg_rate : ℚ
  delay_poisson : ℚ
  rates_meso : List ℚ
  tau_syn : List ℚ
  indegree_modifications : List ℚ
  K_ext_L6E : ℤ
  K_ext_L6I : ℤ

/-- Neuron-count scaling: N = np.round(num_neurons · 0.045).astype(int). -/
def scaleNeuronCounts (s : MesoState) : MesoState :=
  { s with
    N_L6E := roundHalfEven (s.net_dict.num_neurons.getD 6 0 * (45/1000)),
    N_L6I := roundHalfEven (s.net_dict.num_neurons.getD 7 0 * (45/1000)) }

/-- Recurrent in-degree extraction (indegrees[6,6], [7,6], [6,7], [7,7]). -/
def extractIndegrees (s : MesoState) : MesoState :=
  { s with
    K_L6E_L6E := (s.net_dict.indegrees.getD 6 []).getD 6 0,
    K_L6E_L6I := (s.net_dict.indegrees.getD 7 []).getD 6 0,
    K_L6I_L6E := (s.net_dict.indegrees.getD 6 []).getD 7 0,
    K_L6I_L6I := (s.net_dict.indegrees.getD 7 []).getD 7 0 }

/-- Spatial-decay and mask-scaling extraction. -/
def extractBeta (s : MesoState) : MesoState :=
  { s with
    beta_L6E_L6E := (s.net_dict.beta.getD 6 []).getD 6 0,
    beta_L6E_L6I := (s.net_dict.beta.getD 7 []).getD 6 0,
    beta_L6I_L6E := (s.net_dict.beta.getD 6 []).getD 7 0,
    beta_L6I_L6I := (s.net_dict.beta.getD 7 []).getD 7 0,
    mask_scaling := s.net_dict.mask_scaling }

/-- Weight statistics: means from the diagonal blocks, stds scaled by the
relative standard deviation (negated for the inhibitory std). -/
def extractWeights (s : MesoState) : MesoState :=
  { s with
    w_mean_ex := (s.net_dict.weight_matrix_mean.getD 6 []).getD 6 0,
    w_std_ex := (s.net_dict.weight_matrix_mean.getD 6 []).getD 6 0 * s.net_dict.weight_rel_std,
    w_mean_in := (s.net_dict.weight_matrix_mean.getD 7 []).getD 7 0,
    w_std_in := -(s.net_dict.weight_matrix_mean.getD 7 []).getD 7 0 * s.net_dict.weight_rel_std }

/-- Delay parameters, background rate, and the Poisson delay constant. -/
def extractDelaysAndRate (s : MesoState) : MesoState :=
  { s with
    delay_offset := s.net_dict.delay_offset_exc_inh.getD 0 0,
    prop_speed := s.net_dict.prop_speed_exc_inh.getD 0 0,
    bg_rate := s.net_dict.bg_rate,
    delay_poisson := 1 }

/-- Reference rates and the flattened synaptic-time-constant vector. -/
def setReferenceRates (s : MesoState) : MesoState :=
  { s with rates_meso := rates_meso, tau_syn := tau_syn s.neuron_params }

/-- The compensation loop of the notebook (cell computing
`indegree_modifications`). -/
def computeModifications (s : MesoState) : MesoState :=
  { s with
    indegree_modifications :=
      included_popids.map (fun i =>
        indegreeModificationRow (s.net_dict.weight_matrix_mean.getD i [])
          (s.net_dict.indegrees.getD i []) s.tau_syn s.rates_meso
          s.net_dict.weight_ext s.neuron_params.tau_syn_ex s.net_dict.bg_rate
          excluded_popids) }

/-- Adjusted external in-degrees `K_ext_L6E`, `K_ext_L6I`. -/
def computeAdjustedExtIndegrees (s : MesoState) : MesoState :=
  { s with
    K_ext_L6E := roundHalfEven (s.net_dict.ext_indegrees.getD 6 0 +
      s.indegree_modifications.getD 0 0),
    K_ext_L6I := roundHalfEven (s.net_dict.ext_indegrees.getD 7 0 +
      s.indegree_modifications.getD 1 0) }

/-- All derived-quantity computations of the notebook, in notebook order. -/
def runDerivedComputations (s : MesoState) : MesoState :=
  computeAdjustedExtIndegrees (computeModifications (setReferenceRates
    (extractDelaysAndRate (extractWeights (extractBeta (extractIndegrees
      (scaleNeuronCounts s)))))))

/-- C10: the loaded parameter table is never mutated: after all of the
notebook's derived-quantity computations the `net_dict` component of the
state — hence every one of its fields — equals its value at load time. -/
theorem net_dict_never_mutated :
    ∀ s : MesoState, (runDerivedComputations s).net_dict = s.net_dict :=
  fun _ => rfl
